import Mathlib

/-!
Shallow embedding of the Phaser `CameraManager` plugin
(`src/cameras/2d/CameraManager.js`): the camera registry (creation, identity
bits, removal, reset), the frame dispatcher (update/render/resize) and the
boot step of the lifecycle adapter, together with theorems settling the
specification claims.

JavaScript object identity is modelled by a `ref : Nat` field on cameras and
a `nextRef` allocator on the manager; calls the manager makes on external
collaborators (cameras, renderer) are recorded as an `Event` trace.  The
`nextID` counter uses the genuine JavaScript semantics of `<< 1`, namely a
32-bit signed left shift.
-/

namespace Phaser

/-- A single viewport entity, restricted to the attributes the camera
registry's contract observes (spec section 3).  The `ref` field models
JavaScript object identity: two cameras are the same object exactly when
their `ref` fields agree. -/
structure Camera where
  ref : Nat
  id : Int
  name : String
  visible : Bool
  alpha : Rat
  inputEnabled : Bool
  x : Rat
  y : Rat
  width : Rat
  height : Rat
deriving DecidableEq

/-- Observable calls made by the manager on its external collaborators (the
cameras and the renderer).  Cameras are identified by their `ref`. -/
inductive Event where
  | destroy (ref : Nat)
  | camUpdate (ref : Nat) (timestep delta : Rat)
  | preRender (ref : Nat) (baseScale resolution : Rat)
  | submit (children : Nat) (interpolation : Rat) (ref : Nat)
  | setSize (ref : Nat) (width height : Rat)
deriving DecidableEq

/-- A pointer position, as consumed by `getCamerasBelowPointer`. -/
structure Pointer where
  x : Rat
  y : Rat
deriving DecidableEq

/-- The renderer configuration record (`renderer.config`). -/
structure RendererConfig where
  resolution : Rat
deriving DecidableEq

/-- The opaque renderer collaborator; `render` reads
`renderer.config.resolution`. -/
structure Renderer where
  config : RendererConfig
deriving DecidableEq

/-- One `InputJSONCameraObject` record, restricted to the fields the
modelled Camera carries; `none` stands for an absent key, for which
`GetFastValue` returns the stated default. -/
structure CameraConfig where
  name : Option String := none
  x : Option Rat := none
  y : Option Rat := none
  width : Option Rat := none
  height : Option Rat := none
  visible : Option Bool := none
deriving DecidableEq

/-- The camera manager state.  `gameWidth`/`gameHeight` are the host game
config dimensions read by `add` as viewport defaults; `main` stores the
`ref` of the main camera, with `none` standing for JavaScript `undefined`;
`nextRef` models the allocator producing fresh JavaScript objects. -/
structure CameraManager where
  gameWidth : Rat
  gameHeight : Rat
  nextID : Int
  cameras : List Camera
  main : Option Nat
  baseScale : Rat
  nextRef : Nat
deriving DecidableEq

/-- Conversion of an integer into the JavaScript 32-bit signed range
(the ToInt32 abstract operation). -/
def toInt32 (n : Int) : Int :=
  (n + 2 ^ 31) % 2 ^ 32 - 2 ^ 31

/-- JavaScript left shift by one (`n << 1`): the operand is converted with
ToInt32, doubled, and the result is again a 32-bit signed integer. -/
def jsShl1 (n : Int) : Int :=
  toInt32 (2 * toInt32 n)

/-- Modelled from the spec: the external Camera constructor
(`new Camera(x, y, width, height)`, the Camera class is outside `src/`),
producing a fresh viewport entity with the default flags (visible, alpha 1,
input enabled) and no name; `ref` is the fresh object identity. -/
def mkCamera (ref : Nat) (x y width height : Rat) : Camera :=
  { ref := ref, id := 0, name := "", visible := true, alpha := 1,
    inputEnabled := true, x := x, y := y, width := width, height := height }

/-- Modelled from the spec: the external Camera operation `setName`. -/
def Camera.setName (camera : Camera) (name : String) : Camera :=
  { camera with name := name }

/-- Modelled from the spec: the external Camera operation `setSize`, which
sets the viewport width and height. -/
def Camera.setSize (camera : Camera) (width height : Rat) : Camera :=
  { camera with width := width, height := height }

/-- Modelled from the spec: containment of a point in a camera's viewport
rectangle (x, y, width, height); the `RectangleContains` helper is outside
`src/`. -/
def rectangleContains (camera : Camera) (x y : Rat) : Bool :=
  decide (camera.x ≤ x) && decide (x ≤ camera.x + camera.width) &&
  decide (camera.y ≤ y) && decide (y ≤ camera.y + camera.height)

/-- The CameraManager constructor: `nextID = 1`, no cameras, `main`
undefined, `baseScale = 1`. -/
def mkCameraManager (gameWidth gameHeight : Rat) : CameraManager :=
  { gameWidth := gameWidth, gameHeight := gameHeight, nextID := 1,
    cameras := [], main := none, baseScale := 1, nextRef := 0 }

/-- `CameraManager.add`: constructs a fresh camera with the given viewport
(defaults from the game config), names it, appends it to `cameras`, makes it
`main` when requested, assigns it the current `nextID` and left-shifts
`nextID`.  In the source the `id` is written onto the camera object after it
is pushed; with value semantics the pushed value carries the `id`, which is
the same state. -/
def add (st : CameraManager) (x y width height : Option Rat)
    (makeMain : Option Bool) (name : Option String) : Camera × CameraManager :=
  let x := x.getD 0
  let y := y.getD 0
  let width := width.getD st.gameWidth
  let height := height.getD st.gameHeight
  let makeMain := makeMain.getD false
  let name := name.getD ""
  let camera := (mkCamera st.nextRef x y width height).setName name
  let camera := { camera with id := st.nextID }
  ( camera,
    { st with cameras := st.cameras ++ [camera],
              main := if makeMain then some camera.ref else st.main,
              nextID := jsShl1 st.nextID,
              nextRef := st.nextRef + 1 } )

/-- `CameraManager.addExisting`: if the camera is not already present
(`indexOf === -1`, i.e. no element with the same object identity) it is
pushed, assigned the current `nextID`, the counter is shifted and the camera
returned; otherwise the call returns `null` and changes nothing. -/
def addExisting (st : CameraManager) (camera : Camera) (makeMain : Option Bool) :
    Option Camera × CameraManager :=
  let makeMain := makeMain.getD false
  if ∃ x ∈ st.cameras, x.ref = camera.ref then
    (none, st)
  else
    let camera := { camera with id := st.nextID }
    ( some camera,
      { st with cameras := st.cameras ++ [camera],
                nextID := jsShl1 st.nextID,
                main := if makeMain then some camera.ref else st.main } )

/-- One iteration of the `fromJSON` loop: reads the viewport from the config
record (width/height defaulting to the game dimensions), calls `add`, then
assigns the config-driven direct properties onto the just-created camera
(of the modelled attributes these are `name` and `visible`); with value
semantics this replaces the last array element. -/
def applyConfig (st : CameraManager) (cfg : CameraConfig) : CameraManager :=
  let x := cfg.x.getD 0
  let y := cfg.y.getD 0
  let width := cfg.width.getD st.gameWidth
  let height := cfg.height.getD st.gameHeight
  let p := add st (some x) (some y) (some width) (some height) none none
  let camera := { p.1 with name := cfg.name.getD "", visible := cfg.visible.getD true }
  { p.2 with cameras := p.2.cameras.dropLast ++ [camera] }

/-- `CameraManager.fromJSON` on an array of camera configuration records
(a single record is passed as a one-element list, as the source wraps
non-arrays). -/
def fromJSON (st : CameraManager) (config : List CameraConfig) : CameraManager :=
  config.foldl applyConfig st

/-- `CameraManager.getCamerasBelowPointer`: walks the cameras in order and
`unshift`s (prepends) every visible, input-enabled camera whose viewport
contains the pointer, so the top-most camera ends up first. -/
def getCamerasBelowPointer (st : CameraManager) (pointer : Pointer) : List Camera :=
  st.cameras.foldl
    (fun output camera =>
      if camera.visible && camera.inputEnabled &&
          rectangleContains camera pointer.x pointer.y then
        camera :: output
      else output)
    []

/-- `CameraManager.remove`: when the camera is found (`indexOf >= 0`) and at
least one camera would remain (`length > 1`), splice it out and, if it was
`main`, point `main` at the new first element.  No camera operation is
invoked, hence the empty event trace. -/
def remove (st : CameraManager) (camera : Camera) : CameraManager × List Event :=
  if (∃ x ∈ st.cameras, x.ref = camera.ref) ∧ 1 < st.cameras.length then
    let cameras := st.cameras.eraseP (fun c => c.ref == camera.ref)
    ( { st with cameras := cameras,
                main := if st.main = some camera.ref then
                          cameras.head?.map Camera.ref
                        else st.main },
      [] )
  else (st, [])

/-- `CameraManager.render`: for each camera in order, if it is visible with
positive alpha, call `camera.preRender(baseScale, resolution)` and submit
`(scene, children, interpolation, camera)` to the renderer.  No manager
field is assigned, so the state component is the input state. -/
def render (st : CameraManager) (renderer : Renderer) (children : Nat)
    (interpolation : Rat) : CameraManager × List Event :=
  let baseScale := st.baseScale
  let resolution := renderer.config.resolution
  ( st,
    st.cameras.foldl
      (fun out camera =>
        if camera.visible && decide (0 < camera.alpha) then
          out ++ [Event.preRender camera.ref baseScale resolution,
                  Event.submit children interpolation camera.ref]
        else out)
      [] )

/-- `CameraManager.resetAll`: destroys every current camera, clears the
array, resets `nextID` to 1, creates one fresh default camera, makes it
`main` and returns it. -/
def resetAll (st : CameraManager) : Camera × CameraManager × List Event :=
  let events := st.cameras.map (fun c => Event.destroy c.ref)
  let st1 := { st with cameras := [], nextID := 1 }
  let p := add st1 none none none none none none
  (p.1, { p.2 with main := some p.1.ref }, events)

/-- `CameraManager.update`: calls `update(timestep, delta)` on every camera
in order, unconditionally.  No manager field is assigned. -/
def update (st : CameraManager) (timestep delta : Rat) : CameraManager × List Event :=
  (st, st.cameras.map (fun camera => Event.camUpdate camera.ref timestep delta))

/-- `CameraManager.resize`: calls `setSize(width, height)` on every camera
in order.  The array keeps the same objects in the same order; each object's
viewport size is updated by its own `setSize`. -/
def resize (st : CameraManager) (width height : Rat) : CameraManager × List Event :=
  ( { st with cameras := st.cameras.map (fun camera => camera.setSize width height) },
    st.cameras.map (fun camera => Event.setSize camera.ref width height) )

/-- `CameraManager.shutdown`: clears `main`, destroys every camera, empties
the array (the event unsubscription concerns the opaque lifecycle bus and is
not part of the modelled state). -/
def shutdown (st : CameraManager) : CameraManager × List Event :=
  ( { st with main := none, cameras := [] },
    st.cameras.map (fun c => Event.destroy c.ref) )

/-- The camera-creating half of `CameraManager.boot`: when a camera
configuration was supplied (a truthy `settings.cameras`, which includes an
empty array) populate via `fromJSON`, otherwise create one default
camera. -/
def bootCameras (st : CameraManager) : Option (List CameraConfig) → CameraManager
  | some config => fromJSON st config
  | none => (add st none none none none none none).2

/-- `CameraManager.boot`: create the configured cameras (or one default
camera), then set `main` to the first array element (`undefined` when the
array is empty). -/
def boot (st : CameraManager) (cfgs : Option (List CameraConfig)) : CameraManager :=
  { bootCameras st cfgs with
      main := (bootCameras st cfgs).cameras.head?.map Camera.ref }

/-- Registry-mutating operations, used to state identity-bit properties
over arbitrary call sequences. -/
inductive Op where
  | add (x y width height : Option Rat) (makeMain : Option Bool) (name : Option String)
  | addExisting (camera : Camera) (makeMain : Option Bool)
  | remove (camera : Camera)
  | resetAll
deriving DecidableEq

/-- Applies one registry operation, returning the new state together with
the identity bits assigned by the operation (one per successful
registration). -/
def applyOp (st : CameraManager) : Op → CameraManager × List Int
  | .add x y width height makeMain name =>
      ((add st x y width height makeMain name).2,
       [(add st x y width height makeMain name).1.id])
  | .addExisting camera makeMain =>
      ((addExisting st camera makeMain).2,
       ((addExisting st camera makeMain).1.map Camera.id).toList)
  | .remove camera => ((remove st camera).1, [])
  | .resetAll => ((resetAll st).2.1, [(resetAll st).1.id])

/-- Runs a sequence of registry operations, collecting every assigned
identity bit in order. -/
def run : CameraManager → List Op → CameraManager × List Int
  | st, [] => (st, [])
  | st, op :: ops =>
      ((run (applyOp st op).1 ops).1,
       (applyOp st op).2 ++ (run (applyOp st op).1 ops).2)

/-- Applies `add` with default arguments `n` times. -/
def addN : Nat → CameraManager → CameraManager
  | 0, st => st
  | n + 1, st => addN n (add st none none none none none none).2

/-- The main-camera invariant: the registry is non-empty and `main` refers
to one of its elements. -/
def MainOK (st : CameraManager) : Prop :=
  st.cameras ≠ [] ∧ ∃ c ∈ st.cameras, st.main = some c.ref

/-- States reachable from a boot whose configuration, when supplied, is a
non-empty list, through the registry mutators and without an intervening
shutdown. -/
inductive Reachable : CameraManager → Prop where
  | ofBoot (gw gh : Rat) (cfgs : Option (List CameraConfig)) (h : cfgs ≠ some []) :
      Reachable (boot (mkCameraManager gw gh) cfgs)
  | stepAdd (st : CameraManager) (x y width height : Option Rat)
      (makeMain : Option Bool) (name : Option String) :
      Reachable st → Reachable (add st x y width height makeMain name).2
  | stepAddExisting (st : CameraManager) (camera : Camera) (makeMain : Option Bool) :
      Reachable st → Reachable (addExisting st camera makeMain).2
  | stepRemove (st : CameraManager) (camera : Camera) :
      Reachable st → Reachable (remove st camera).1
  | stepResetAll (st : CameraManager) :
      Reachable st → Reachable (resetAll st).2.1

/-! ### Helper lemmas -/

lemma toInt32_eq_self {n : Int} (h1 : -2 ^ 31 ≤ n) (h2 : n < 2 ^ 31) :
    toInt32 n = n := by
  unfold toInt32
  rw [Int.emod_eq_of_lt (by omega) (by omega)]
  omega

lemma jsShl1_eq_double {n : Int} (h1 : 0 ≤ n) (h2 : 2 * n < 2 ^ 31) :
    jsShl1 n = 2 * n := by
  unfold jsShl1
  rw [show toInt32 n = n from toInt32_eq_self (by omega) (by omega)]
  exact toInt32_eq_self (by omega) (by omega)

lemma foldl_prepend_filter {α : Type} (p : α → Bool) :
    ∀ (l : List α) (acc : List α),
      l.foldl (fun output c => if p c then c :: output else output) acc
        = (l.filter p).reverse ++ acc
  | [], acc => by simp
  | c :: l, acc => by
      by_cases h : p c <;>
        simp [List.filter_cons, h, foldl_prepend_filter p l]

lemma foldl_append_if {α β : Type} (p : α → Bool) (g : α → List β) :
    ∀ (l : List α) (acc : List β),
      l.foldl (fun out c => if p c then out ++ g c else out) acc
        = acc ++ (l.filter p).flatMap g
  | [], acc => by simp
  | c :: l, acc => by
      by_cases h : p c <;>
        simp [List.filter_cons, h, foldl_append_if p g l]

lemma addExisting_present (st : CameraManager) (camera : Camera) (mm : Option Bool)
    (h : ∃ x ∈ st.cameras, x.ref = camera.ref) :
    addExisting st camera mm = (none, st) := by
  rw [addExisting, if_pos h]

lemma addExisting_not_present (st : CameraManager) (camera : Camera) (mm : Option Bool)
    (h : ¬∃ x ∈ st.cameras, x.ref = camera.ref) :
    addExisting st camera mm =
      (some { camera with id := st.nextID },
       { st with cameras := st.cameras ++ [{ camera with id := st.nextID }],
                 nextID := jsShl1 st.nextID,
                 main := if mm.getD false then some camera.ref else st.main }) := by
  rw [addExisting, if_neg h]

lemma remove_nextID (st : CameraManager) (camera : Camera) :
    (remove st camera).1.nextID = st.nextID := by
  rw [remove]; split <;> rfl

lemma idsPow_single (k : Nat) :
    [(2 : Int) ^ k]
      = (List.range [(2 : Int) ^ k].length).map (fun i => (2 : Int) ^ (k + i)) := by
  simp [List.range_succ]

lemma idsPow_cons {k : Nat} {rest : List Int}
    (h : rest = (List.range rest.length).map (fun i => (2 : Int) ^ (k + 1 + i))) :
    (2 : Int) ^ k :: rest
      = (List.range ((2 : Int) ^ k :: rest).length).map
          (fun i => (2 : Int) ^ (k + i)) := by
  rw [List.length_cons, List.range_succ_eq_map, List.map_cons, List.map_map]
  refine List.cons_eq_cons.mpr ⟨by norm_num, ?_⟩
  conv_lhs => rw [h]
  refine List.map_congr_left fun a _ => ?_
  simp only [Function.comp_apply]
  congr 1
  omega

lemma jsShl1_pow {k : Nat} (hk : k ≤ 29) :
    jsShl1 ((2 : Int) ^ k) = 2 ^ (k + 1) := by
  rw [jsShl1_eq_double (by positivity)
    (by rw [show (2 : Int) * 2 ^ k = 2 ^ (k + 1) by ring]
        exact pow_lt_pow_right₀ one_lt_two (by omega))]
  ring

lemma run_ids_pow_cons (ops : List Op) (st1 : CameraManager) (k : Nat)
    (hk : k ≤ 30) (hnext : st1.nextID = jsShl1 (2 ^ k)) (hmem : Op.resetAll ∉ ops)
    (hlen : k + ((run st1 ops).2.length + 1) ≤ 31)
    (ih : ∀ (st2 : CameraManager) (k2 : Nat), k2 ≤ 30 → st2.nextID = 2 ^ k2 →
        Op.resetAll ∉ ops → k2 + (run st2 ops).2.length ≤ 31 →
        (run st2 ops).2
          = (List.range (run st2 ops).2.length).map (fun i => (2 : Int) ^ (k2 + i))) :
    (2 : Int) ^ k :: (run st1 ops).2
      = (List.range ((2 : Int) ^ k :: (run st1 ops).2).length).map
          (fun i => (2 : Int) ^ (k + i)) := by
  by_cases hk30 : k = 30
  · subst hk30
    have hrest : (run st1 ops).2 = [] := List.length_eq_zero.mp (by omega)
    rw [hrest]
    exact idsPow_single 30
  · exact idsPow_cons
      (ih st1 (k + 1) (by omega) (by rw [hnext, jsShl1_pow (by omega)]) hmem
        (by omega))

lemma run_ids_pow (ops : List Op) :
    ∀ (st : CameraManager) (k : Nat), k ≤ 30 → st.nextID = 2 ^ k →
      Op.resetAll ∉ ops → k + (run st ops).2.length ≤ 31 →
      (run st ops).2
        = (List.range (run st ops).2.length).map (fun i => (2 : Int) ^ (k + i)) := by
  induction ops with
  | nil => intro st k _ _ _ _; simp [run]
  | cons op ops ih =>
    intro st k hk hst hmem hlen
    have hmem' : Op.resetAll ∉ ops := fun hmm => hmem (List.mem_cons_of_mem _ hmm)
    cases op with
    | add x y w h mm nm =>
      simp only [run, applyOp, List.singleton_append, List.length_cons] at hlen ⊢
      rw [show (add st x y w h mm nm).1.id = st.nextID from rfl, hst]
      exact run_ids_pow_cons ops (add st x y w h mm nm).2 k hk
        (by rw [show (add st x y w h mm nm).2.nextID = jsShl1 st.nextID from rfl, hst])
        hmem' hlen ih
    | addExisting c mm =>
      by_cases hp : ∃ x ∈ st.cameras, x.ref = c.ref
      · have he := addExisting_present st c mm hp
        simp only [run, applyOp, he, Option.map_none', Option.toList_none,
          List.nil_append] at hlen ⊢
        exact ih st k hk hst hmem' hlen
      · have he := addExisting_not_present st c mm hp
        have hids : ((addExisting st c mm).1.map Camera.id).toList = [st.nextID] := by
          rw [he]
          rfl
        have hnext2 : (addExisting st c mm).2.nextID = jsShl1 st.nextID := by
          rw [he]
        simp only [run, applyOp, hids, List.singleton_append, List.length_cons]
          at hlen ⊢
        rw [hst]
        exact run_ids_pow_cons ops (addExisting st c mm).2 k hk
          (by rw [hnext2, hst]) hmem' hlen ih
    | remove c =>
      simp only [run, applyOp, List.nil_append] at hlen ⊢
      exact ih (remove st c).1 k hk (by rw [remove_nextID, hst]) hmem' hlen
    | resetAll => exact absurd (List.mem_cons_self _ _) hmem

lemma applyConfig_main (st : CameraManager) (cfg : CameraConfig) :
    (applyConfig st cfg).main = st.main := rfl

lemma applyConfig_length (st : CameraManager) (cfg : CameraConfig) :
    (applyConfig st cfg).cameras.length = st.cameras.length + 1 := by
  show ((add st _ _ _ _ none none).2.cameras.dropLast ++ [_]).length = _
  rw [show (add st _ _ _ _ none none).2.cameras = st.cameras ++ [(add st _ _ _ _ none none).1] from rfl]
  rw [← List.concat_eq_append, List.dropLast_concat]
  simp

lemma fromJSON_length (config : List CameraConfig) :
    ∀ st : CameraManager,
      (fromJSON st config).cameras.length = st.cameras.length + config.length := by
  induction config with
  | nil => intro st; simp [fromJSON]
  | cons cfg config ih =>
      intro st
      show (fromJSON (applyConfig st cfg) config).cameras.length = _
      rw [ih, applyConfig_length]
      simp
      omega

lemma mainOK_set_head (st1 : CameraManager) (h : st1.cameras ≠ []) :
    MainOK { st1 with main := st1.cameras.head?.map Camera.ref } := by
  refine ⟨h, ⟨st1.cameras.head h, List.head_mem h, ?_⟩⟩
  show st1.cameras.head?.map Camera.ref = _
  rw [List.head?_eq_head h, Option.map_some']

lemma mainOK_add (st : CameraManager) (x y width height : Option Rat)
    (mm : Option Bool) (nm : Option String) (ih : MainOK st) :
    MainOK (add st x y width height mm nm).2 := by
  obtain ⟨hne, c, hc, hm⟩ := ih
  refine ⟨by simp [add], ?_⟩
  show ∃ c2 ∈ st.cameras ++ [_], (if mm.getD false then some _ else st.main) = some c2.ref
  split
  · exact ⟨_, List.mem_append_right _ (List.mem_singleton_self _), rfl⟩
  · exact ⟨c, List.mem_append.mpr (Or.inl hc), hm⟩

lemma reachable_mainOK (st : CameraManager) (h : Reachable st) : MainOK st := by
  induction h with
  | ofBoot gw gh cfgs hcfg =>
      apply mainOK_set_head
      cases cfgs with
      | none =>
          show ((add (mkCameraManager gw gh) none none none none none none).2).cameras ≠ []
          simp [add]
      | some l =>
          show (fromJSON (mkCameraManager gw gh) l).cameras ≠ []
          have hlen := fromJSON_length l (mkCameraManager gw gh)
          have hl : l ≠ [] := fun hnil => hcfg (by rw [hnil])
          have : 0 < l.length := List.length_pos.mpr hl
          intro hnil
          rw [← List.length_eq_zero, hlen] at hnil
          have h0 : (mkCameraManager gw gh).cameras.length = 0 := rfl
          omega
  | stepAdd st x y width height mm nm _ ih => exact mainOK_add st x y width height mm nm ih
  | stepAddExisting st c mm _ ih =>
      by_cases hp : ∃ x ∈ st.cameras, x.ref = c.ref
      · rw [show (addExisting st c mm).2 = st from by rw [addExisting_present st c mm hp]]
        exact ih
      · obtain ⟨hne, c2, hc2, hm⟩ := ih
        rw [addExisting_not_present st c mm hp]
        refine ⟨by simp, ?_⟩
        show ∃ c3 ∈ st.cameras ++ [_], (if mm.getD false then some c.ref else st.main) = some c3.ref
        split
        · exact ⟨{ c with id := st.nextID },
            List.mem_append_right _ (List.mem_singleton_self _), rfl⟩
        · exact ⟨c2, List.mem_append.mpr (Or.inl hc2), hm⟩
  | stepRemove st c _ ih =>
      by_cases hcond : (∃ x ∈ st.cameras, x.ref = c.ref) ∧ 1 < st.cameras.length
      · obtain ⟨⟨x, hx, href⟩, hlen⟩ := hcond
        rw [show remove st c =
            ({ st with cameras := st.cameras.eraseP (fun c2 => c2.ref == c.ref),
                       main := if st.main = some c.ref then
                                 (st.cameras.eraseP (fun c2 => c2.ref == c.ref)).head?.map Camera.ref
                               else st.main }, []) from
          by rw [remove, if_pos ⟨⟨x, hx, href⟩, hlen⟩]]
        have herased : (st.cameras.eraseP (fun c2 => c2.ref == c.ref)).length
            = st.cameras.length - 1 :=
          List.length_eraseP_of_mem hx (by simpa using href)
        have hne2 : st.cameras.eraseP (fun c2 => c2.ref == c.ref) ≠ [] := by
          intro hnil
          rw [← List.length_eq_zero, herased] at hnil
          omega
        refine ⟨hne2, ?_⟩
        show ∃ c2 ∈ st.cameras.eraseP (fun c2 => c2.ref == c.ref),
          (if st.main = some c.ref then _ else st.main) = some c2.ref
        split
        · refine ⟨(st.cameras.eraseP (fun c2 => c2.ref == c.ref)).head hne2,
            List.head_mem hne2, ?_⟩
          rw [List.head?_eq_head hne2, Option.map_some']
        · rename_i hnot
          obtain ⟨hne, c2, hc2, hm⟩ := ih
          have hc2ref : c2.ref ≠ c.ref := fun heq => hnot (by rw [hm, heq])
          exact ⟨c2, (List.mem_eraseP_of_neg (by simpa using hc2ref)).mpr hc2, hm⟩
      · rw [show (remove st c).1 = st from by rw [remove, if_neg hcond]]
        exact ih
  | stepResetAll st _ _ =>
      refine ⟨by simp [resetAll, add], ⟨(resetAll st).1, ?_, rfl⟩⟩
      show (resetAll st).1 ∈ [] ++ [(resetAll st).1]
      simp

/-! ### Claim theorems -/

/-- C1 (amended): every call to `add` appends the new camera at the end of
the array (its length growing by exactly one) and the returned camera's id
is the value `nextID` had before the call; provided the prior counter value
is nonnegative and below `2 ^ 30` — as it is throughout the documented
31-camera capacity — the counter afterwards equals exactly double its prior
value.  (In general the counter becomes the 32-bit signed left shift of the
prior value, which differs from doubling once the shift overflows; see the
counterexample.) -/
theorem add_appends_and_shifts (st : CameraManager) (x y width height : Option Rat)
    (makeMain : Option Bool) (name : Option String) :
    ((add st x y width height makeMain name).2.cameras
        = st.cameras ++ [(add st x y width height makeMain name).1]
      ∧ (add st x y width height makeMain name).2.cameras.length
          = st.cameras.length + 1
      ∧ (add st x y width height makeMain name).1.id = st.nextID)
    ∧ (0 ≤ st.nextID → st.nextID < 2 ^ 30 →
        (add st x y width height makeMain name).2.nextID = 2 * st.nextID) := by
  refine ⟨⟨rfl, by simp [add], rfl⟩, fun h1 h2 => ?_⟩
  show jsShl1 st.nextID = 2 * st.nextID
  exact jsShl1_eq_double h1 (by omega)

theorem add_appends_and_shifts_witness :
    (0 ≤ (mkCameraManager 800 600).nextID
      ∧ (mkCameraManager 800 600).nextID < 2 ^ 30)
    ∧ (add (mkCameraManager 800 600) none none none none none none).2.nextID
        = 2 * (mkCameraManager 800 600).nextID :=
  ⟨⟨by decide, by decide⟩,
   (add_appends_and_shifts (mkCameraManager 800 600) none none none none
       none none).2 (by decide) (by decide)⟩

set_option maxRecDepth 4000 in
/-- C1 counterexample: in the state reached by 30 default `add` calls from a
freshly constructed manager the counter holds `2 ^ 30`, and the next `add`
leaves the counter at `-2 ^ 31` (the JavaScript 32-bit signed shift), not at
double the prior value. -/
theorem add_double_overflow_cex :
    (addN 30 (mkCameraManager 800 600)).nextID = 2 ^ 30
    ∧ (add (addN 30 (mkCameraManager 800 600)) none none none none
          none none).2.nextID
        ≠ 2 * (addN 30 (mkCameraManager 800 600)).nextID
    ∧ (add (addN 30 (mkCameraManager 800 600)) none none none none
          none none).2.nextID
        = -2 ^ 31 :=
  ⟨by decide, by decide, by decide⟩

/-- C2: from any state whose counter is 1 — a freshly constructed manager,
or the instant at which `resetAll` has restarted the counter (its fresh
default camera is then the first registration of the subsequent run) — any
sequence of registry operations not containing `resetAll` and performing at
most 31 successful registrations (via `add`, or via `addExisting` on a
not-yet-present camera) assigns as ids exactly the consecutive powers of two
1, 2, 4, ...; hence the ids are pairwise distinct powers of two `2 ^ i` with
`i ≤ 30`.  Removals may occur anywhere in the sequence: they never touch the
counter, so no bit is ever reassigned to a later camera. -/
theorem identity_bits_distinct_powers (st : CameraManager) (ops : List Op)
    (h1 : st.nextID = 1) (h2 : Op.resetAll ∉ ops)
    (h3 : (run st ops).2.length ≤ 31) :
    (run st ops).2
        = (List.range (run st ops).2.length).map (fun i => (2 : Int) ^ i)
    ∧ (run st ops).2.Pairwise (· ≠ ·)
    ∧ ∀ d ∈ (run st ops).2, ∃ i ≤ 30, d = (2 : Int) ^ i := by
  have h0 := run_ids_pow ops st 0 (by omega) (by rw [h1]; norm_num) h2 (by omega)
  simp only [Nat.zero_add] at h0
  refine ⟨h0, ?_, ?_⟩
  · rw [h0, List.pairwise_map]
    exact (List.pairwise_lt_range _).imp
      (fun hij => ne_of_lt (pow_lt_pow_right₀ one_lt_two hij))
  · intro d hd
    rw [h0] at hd
    obtain ⟨i, hi, rfl⟩ := List.mem_map.mp hd
    exact ⟨i, by have := List.mem_range.mp hi; omega, rfl⟩

theorem identity_bits_distinct_powers_witness :
    ((mkCameraManager 800 600).nextID = 1
      ∧ Op.resetAll ∉ [Op.add none none none none none none,
          Op.add none none none none none none,
          Op.remove (mkCamera 0 0 0 800 600),
          Op.add none none none none none none]
      ∧ (run (mkCameraManager 800 600)
            [Op.add none none none none none none,
             Op.add none none none none none none,
             Op.remove (mkCamera 0 0 0 800 600),
             Op.add none none none none none none]).2.length ≤ 31)
    ∧ (run (mkCameraManager 800 600)
          [Op.add none none none none none none,
           Op.add none none none none none none,
           Op.remove (mkCamera 0 0 0 800 600),
           Op.add none none none none none none]).2
        = (List.range (run (mkCameraManager 800 600)
              [Op.add none none none none none none,
               Op.add none none none none none none,
               Op.remove (mkCamera 0 0 0 800 600),
               Op.add none none none none none none]).2.length).map
            (fun i => (2 : Int) ^ i) :=
  ⟨⟨rfl, by decide, by decide⟩,
   (identity_bits_distinct_powers (mkCameraManager 800 600)
       [Op.add none none none none none none,
        Op.add none none none none none none,
        Op.remove (mkCamera 0 0 0 800 600),
        Op.add none none none none none none]
       rfl (by decide) (by decide)).1⟩

/-- C3 (amended): for every state reachable through the registry mutators
from a boot that registered at least one camera (i.e. whose camera
configuration, when supplied, was a non-empty list), the cameras array is
non-empty and `main` references one of its elements; and whenever the camera
referenced by `main` is removed while at least two cameras are registered,
`main` is reassigned to the new first element of the array. -/
theorem main_references_element (st : CameraManager) (h : Reachable st) :
    (st.cameras ≠ [] ∧ ∃ c ∈ st.cameras, st.main = some c.ref)
    ∧ ∀ camera : Camera, (∃ x ∈ st.cameras, x.ref = camera.ref) →
        st.main = some camera.ref → 2 ≤ st.cameras.length →
        ∃ c0, (remove st camera).1.cameras.head? = some c0
          ∧ (remove st camera).1.main = some c0.ref := by
  refine ⟨reachable_mainOK st h, ?_⟩
  intro camera hpres hmain hlen
  obtain ⟨x, hx, href⟩ := hpres
  rw [show remove st camera =
      ({ st with cameras := st.cameras.eraseP (fun c2 => c2.ref == camera.ref),
                 main := if st.main = some camera.ref then
                           (st.cameras.eraseP
                             (fun c2 => c2.ref == camera.ref)).head?.map Camera.ref
                         else st.main }, []) from
    by rw [remove, if_pos ⟨⟨x, hx, href⟩, by omega⟩]]
  have herased : (st.cameras.eraseP (fun c2 => c2.ref == camera.ref)).length
      = st.cameras.length - 1 :=
    List.length_eraseP_of_mem hx (by simpa using href)
  have hne2 : st.cameras.eraseP (fun c2 => c2.ref == camera.ref) ≠ [] := by
    intro hnil
    rw [← List.length_eq_zero, herased] at hnil
    omega
  refine ⟨(st.cameras.eraseP (fun c2 => c2.ref == camera.ref)).head hne2,
    List.head?_eq_head hne2, ?_⟩
  show (if st.main = some camera.ref then _ else st.main) = _
  rw [if_pos hmain, List.head?_eq_head hne2, Option.map_some']

theorem main_references_element_witness :
    ∃ c ∈ (add (boot (mkCameraManager 800 600) none)
        none none none none none none).2.cameras,
      (add (boot (mkCameraManager 800 600) none)
          none none none none none none).2.main = some c.ref :=
  ((main_references_element
      (add (boot (mkCameraManager 800 600) none) none none none none none none).2
      (Reachable.stepAdd (boot (mkCameraManager 800 600) none)
        none none none none none none
        (Reachable.ofBoot 800 600 none (by simp)))).1).2

/-- C3 counterexample: booting with an empty camera-configuration list (a
truthy `settings.cameras` value in JavaScript) creates no cameras and leaves
`main` undefined; a subsequent `add` then yields a state, reached after
boot, whose cameras array is non-empty while `main` references no element of
it. -/
theorem main_unset_after_empty_config_boot_cex :
    (add (boot (mkCameraManager 800 600) (some []))
        none none none none none none).2.cameras ≠ []
    ∧ (add (boot (mkCameraManager 800 600) (some []))
          none none none none none none).2.main = none
    ∧ ∀ c ∈ (add (boot (mkCameraManager 800 600) (some []))
          none none none none none none).2.cameras,
        (add (boot (mkCameraManager 800 600) (some []))
            none none none none none none).2.main ≠ some c.ref :=
  ⟨by decide, by decide, by decide⟩

/-- C4: `render` submits exactly the cameras satisfying
`visible && alpha > 0`, in registration (array) order; each such camera is
pre-rendered with `(baseScale, renderer.config.resolution)` immediately
before its submission, and cameras failing the predicate are neither
pre-rendered nor submitted.  The whole event trace is characterised. -/
theorem render_filters_and_orders (st : CameraManager) (renderer : Renderer)
    (children : Nat) (interpolation : Rat) :
    (render st renderer children interpolation).2 =
      (st.cameras.filter
          (fun camera => camera.visible && decide (0 < camera.alpha))).flatMap
        (fun camera =>
          [Event.preRender camera.ref st.baseScale renderer.config.resolution,
           Event.submit children interpolation camera.ref]) := by
  simp only [render, foldl_append_if, List.nil_append]

/-- C5: the point query returns exactly the cameras whose viewport contains
the point and which are visible and input-enabled, in reverse registration
order (top-most first). -/
theorem getCamerasBelowPointer_topmost_first (st : CameraManager) (pointer : Pointer) :
    getCamerasBelowPointer st pointer =
      (st.cameras.filter
          (fun camera =>
            camera.visible && camera.inputEnabled &&
              rectangleContains camera pointer.x pointer.y)).reverse := by
  simp only [getCamerasBelowPointer, foldl_prepend_filter, List.append_nil]

/-- C6: `remove` on a camera that is not present, or on the sole remaining
camera, is a silent no-op (state unchanged, no events); and no call to
`remove` ever invokes a camera's destroy (its event trace is always
empty). -/
theorem remove_invalid_is_noop (st : CameraManager) (camera : Camera) :
    ((∀ x ∈ st.cameras, x.ref ≠ camera.ref) ∨ st.cameras.length ≤ 1 →
        remove st camera = (st, []))
    ∧ (remove st camera).2 = [] := by
  constructor
  · intro h
    rw [remove, if_neg]
    rintro ⟨⟨x, hx, href⟩, hlen⟩
    rcases h with h | h
    · exact h x hx href
    · omega
  · rw [remove]; split <;> rfl

theorem remove_invalid_is_noop_witness :
    remove (add (mkCameraManager 800 600) none none none none none none).2
        (add (mkCameraManager 800 600) none none none none none none).1
      = ((add (mkCameraManager 800 600) none none none none none none).2, []) :=
  (remove_invalid_is_noop
      (add (mkCameraManager 800 600) none none none none none none).2
      (add (mkCameraManager 800 600) none none none none none none).1).1
    (Or.inr (by decide))

/-- C7: `addExisting` on an already-present camera returns `none` and leaves
the state unchanged; on a not-yet-present camera it returns the camera (with
its freshly assigned id) and a second call with the same camera returns
`none` and changes nothing, the array having grown by exactly one in
total. -/
theorem addExisting_duplicate_rejected (st : CameraManager) (camera : Camera)
    (mm mm2 : Option Bool) :
    ((∃ x ∈ st.cameras, x.ref = camera.ref) → addExisting st camera mm = (none, st))
    ∧ ((∀ x ∈ st.cameras, x.ref ≠ camera.ref) →
        (addExisting st camera mm).1 = some { camera with id := st.nextID }
        ∧ (addExisting (addExisting st camera mm).2 camera mm2).1 = none
        ∧ (addExisting (addExisting st camera mm).2 camera mm2).2
            = (addExisting st camera mm).2
        ∧ (addExisting st camera mm).2.cameras.length = st.cameras.length + 1) := by
  constructor
  · intro h
    rw [addExisting, if_pos h]
  · intro h
    have hno : ¬∃ x ∈ st.cameras, x.ref = camera.ref := by
      rintro ⟨x, hx, href⟩; exact h x hx href
    have h1 : addExisting st camera mm =
        (some { camera with id := st.nextID },
         { st with cameras := st.cameras ++ [{ camera with id := st.nextID }],
                   nextID := jsShl1 st.nextID,
                   main := if mm.getD false then some camera.ref else st.main }) := by
      rw [addExisting, if_neg hno]
    have hyes : ∃ x ∈ (addExisting st camera mm).2.cameras, x.ref = camera.ref := by
      rw [h1]
      exact ⟨{ camera with id := st.nextID }, by simp, rfl⟩
    have h2 : addExisting (addExisting st camera mm).2 camera mm2 =
        (none, (addExisting st camera mm).2) := by
      rw [addExisting, if_pos hyes]
    refine ⟨by rw [h1], by rw [h2], by rw [h2], by rw [h1]; simp⟩

theorem addExisting_duplicate_rejected_witness :
    (∀ x ∈ (mkCameraManager 800 600).cameras, x.ref ≠ (mkCamera 3 1 2 5 5).ref)
    ∧ (addExisting
         (addExisting (mkCameraManager 800 600) (mkCamera 3 1 2 5 5) none).2
         (mkCamera 3 1 2 5 5) none).1 = none :=
  ⟨by decide,
   ((addExisting_duplicate_rejected (mkCameraManager 800 600) (mkCamera 3 1 2 5 5)
        none none).2 (by decide)).2.1⟩

/-- C8: `resetAll` destroys every previously registered camera, and
afterwards exactly one camera is registered, `nextID = 2`, the new camera
has id 1, `main` references it, and the call returns it. -/
theorem resetAll_spec (st : CameraManager) :
    (resetAll st).2.2 = st.cameras.map (fun c => Event.destroy c.ref)
    ∧ (resetAll st).2.1.cameras = [(resetAll st).1]
    ∧ (resetAll st).2.1.cameras.length = 1
    ∧ (resetAll st).2.1.nextID = 2
    ∧ (resetAll st).1.id = 1
    ∧ (resetAll st).2.1.main = some (resetAll st).1.ref := by
  refine ⟨rfl, rfl, rfl, ?_, rfl, rfl⟩
  show jsShl1 1 = 2
  decide

/-- C9: `shutdown` is idempotent: a second call produces the same end state
as the first (cameras empty, `main` unset) and performs no further camera
destruction. -/
theorem shutdown_idempotent (st : CameraManager) :
    (shutdown (shutdown st).1).1 = (shutdown st).1
    ∧ (shutdown st).1.cameras = []
    ∧ (shutdown st).1.main = none
    ∧ (shutdown (shutdown st).1).2 = [] :=
  ⟨rfl, rfl, rfl, rfl⟩

/-- C10: the frame-dispatch operations leave the registry's own state
unchanged: `update` and `render` return the state untouched, and `resize`
keeps `nextID`, `main`, and the array's objects (identified by `ref`) in the
same order, each element changed only by its own `setSize`. -/
theorem frame_dispatch_preserves_registry (st : CameraManager)
    (timestep delta interpolation width height : Rat) (renderer : Renderer)
    (children : Nat) :
    (update st timestep delta).1 = st
    ∧ (render st renderer children interpolation).1 = st
    ∧ (resize st width height).1.nextID = st.nextID
    ∧ (resize st width height).1.main = st.main
    ∧ (resize st width height).1.cameras.map Camera.ref = st.cameras.map Camera.ref
    ∧ (resize st width height).1.cameras
        = st.cameras.map (fun c => c.setSize width height) := by
  refine ⟨rfl, rfl, rfl, rfl, ?_, rfl⟩
  simp [resize, Camera.setSize]

end Phaser
